import Mathlib

/-!
Verification of the smaps parser.

A shallow embedding of the two source modules (`lib.rs`, `parse.rs`) of the
`smaps` crate: a line-oriented parser for the Linux `/proc/[pid]/smaps`
format. Rust strings are modelled as Lean `String`s (operated on through
`String.toList`), `usize` arithmetic is `Nat` reduced modulo `2 ^ 64` where
overflow matters, `u32` uses `2 ^ 32`, fallible operations return `Option`
or `Except`, and a Rust `panic!` is modelled as the `Except.error` /
`StepResult.fatal` carrying the panic message. I/O errors of the underlying
line source are abstracted as an opaque numeric payload.
-/

namespace Smaps

/-- Abstract model of `std::io::Error`: only identity matters. -/
abbrev IoError := Nat

/-- One item produced by the `std::io::Lines` iterator: `io::Result<String>`. -/
abbrev Line := Except IoError String

/-- Rust `usize` is modelled as 64-bit: values are `Nat`s below `2 ^ 64`. -/
def usizeSize : Nat := 2 ^ 64

/-- Rust `u32` bound, used by `Device::parse`. -/
def u32Size : Nat := 2 ^ 32

/-- Rust `u8::is_ascii_whitespace`: space, horizontal tab, newline, form feed,
carriage return. -/
def isAsciiWhitespace (c : Char) : Bool :=
  c = ' ' || c = '\t' || c = '\n' || c = '\x0c' || c = '\r'

/-- Accumulator-style worker for `str::split_ascii_whitespace`. -/
def splitAsciiWhitespaceAux (acc : List Char) : List Char → List String
  | [] => if acc.isEmpty then [] else [String.mk acc.reverse]
  | c :: cs =>
    if isAsciiWhitespace c then
      if acc.isEmpty then splitAsciiWhitespaceAux [] cs
      else String.mk acc.reverse :: splitAsciiWhitespaceAux [] cs
    else splitAsciiWhitespaceAux (c :: acc) cs

/-- Rust `str::split_ascii_whitespace`, materialised as the list of tokens the
Rust iterator yields (nonempty maximal runs of non-whitespace). -/
def splitAsciiWhitespace (s : String) : List String :=
  splitAsciiWhitespaceAux [] s.toList

/-- Rust `str::contains('-')`-style character containment. -/
def containsChar (s : String) (c : Char) : Bool :=
  s.toList.contains c

/-- Rust `str::trim_end_matches(":")`: strips every trailing colon. -/
def trimEndColons (s : String) : String :=
  String.mk ((s.toList.reverse.dropWhile (fun c => c = ':')).reverse)

/-- Rust `str::trim_ascii_start` on a character list. -/
def trimAsciiStartL (cs : List Char) : List Char :=
  cs.dropWhile isAsciiWhitespace

/-- Rust `str::trim_start_matches("VmFlags:")`: repeatedly strips the literal
prefix while it matches. -/
def trimVmFlagsTagL : List Char → List Char
  | 'V' :: 'm' :: 'F' :: 'l' :: 'a' :: 'g' :: 's' :: ':' :: rest =>
      trimVmFlagsTagL rest
  | cs => cs

/-- Worker for `str::split_once`: `pre` holds the scanned characters in
reverse. -/
def splitOnceAux (c : Char) (pre : List Char) : List Char → Option (List Char × List Char)
  | [] => none
  | x :: xs => if x = c then some (pre.reverse, xs) else splitOnceAux c (x :: pre) xs

/-- Rust `str::split_once(c)`: splits at the first occurrence of `c`, `none` when
`c` does not occur. -/
def splitOnce (c : Char) (s : String) : Option (String × String) :=
  (splitOnceAux c [] s.toList).map (fun p => (String.mk p.1, String.mk p.2))

/-- Rust `char::to_digit(radix)`: digit value of `c` in the given base. -/
def digitValue (radix : Nat) (c : Char) : Option Nat :=
  let v : Option Nat :=
    if 48 ≤ c.toNat ∧ c.toNat ≤ 57 then some (c.toNat - 48)
    else if 97 ≤ c.toNat ∧ c.toNat ≤ 122 then some (c.toNat - 97 + 10)
    else if 65 ≤ c.toNat ∧ c.toNat ≤ 90 then some (c.toNat - 65 + 10)
    else none
  match v with
  | some d => if d < radix then some d else none
  | none => none

/-- One accumulation step of an unsigned `from_str_radix`: shift the
accumulator and add the digit, failing on a non-digit. -/
def digitStep (radix : Nat) (acc : Option Nat) (c : Char) : Option Nat :=
  match acc, digitValue radix c with
  | some a, some d => some (a * radix + d)
  | _, _ => none

/-- Positional value of a digit string; `none` on the first character that is
not a digit of the base. -/
def digitsValue (radix : Nat) (cs : List Char) : Option Nat :=
  cs.foldl (digitStep radix) (some 0)

/-- Strips the single optional leading `'+'` accepted by Rust's integer
parsing (`from_str_radix` on an unsigned type rejects `'-'`). -/
def stripPlus : List Char → List Char
  | [] => []
  | c :: rest => if c = '+' then rest else c :: rest

/-- Rust `uN::from_str_radix(s, radix)` for an unsigned type of bound `bound`:
optional `'+'`, then a nonempty digit string; overflow is an error. Rust
checks overflow at each accumulation step, but the accumulator is monotone,
so a final-value bound check is equivalent. -/
def fromStrRadix (radix bound : Nat) (s : String) : Option Nat :=
  let ds := stripPlus s.toList
  if ds.isEmpty then none
  else
    match digitsValue radix ds with
    | none => none
    | some v => if v < bound then some v else none

/-- Rust `fn parse_hex(data: &str) -> Option<usize>`:
`usize::from_str_radix(data, 16).ok()`. -/
def parse_hex (s : String) : Option Nat :=
  fromStrRadix 16 usizeSize s

/-- Rust `str::parse::<usize>().ok()`: strict decimal parse of a `usize`. -/
def parseUsize (s : String) : Option Nat :=
  fromStrRadix 10 usizeSize s

/-- Rust `struct Permissions` (`bitflags` over `u8`), one Bool per named bit. -/
structure Permissions where
  x : Bool
  w : Bool
  r : Bool
  s : Bool
  p : Bool
deriving DecidableEq

/-- Rust `struct Device { major: u32, minor: u32 }`. -/
structure Device where
  major : Nat
  minor : Nat
deriving DecidableEq

/-- Rust `VmFlags` (`bitflags` over `u32`) as its backing bitmask. -/
abbrev VmFlags := Nat

/-- Rust `struct Mapping`. -/
structure Mapping where
  start : Nat
  «end» : Nat
  permissions : Permissions
  offset : Nat
  device : Device
  inode : Nat
  path : Option String
deriving DecidableEq

/-- Rust `struct Usage`. -/
structure Usage where
  size : Nat
  kernel_page_size : Nat
  mmu_page_size : Nat
  rss : Nat
  pss : Nat
  pss_dirty : Nat
  shared_clean : Nat
  shared_dirty : Nat
  private_clean : Nat
  private_dirty : Nat
  referenced : Nat
  anonymous : Nat
  ksm : Nat
  lazy_free : Nat
  anon_huge_pages : Nat
  shmem_huge_pages : Nat
  shmem_pmd_mapped : Nat
  file_pmd_mapped : Nat
  shared_hugetlb : Nat
  private_hugetlb : Nat
  swap : Nat
  swap_pss : Nat
  locked : Nat
  thp_eligible : Bool
  protection_key : Option Nat
  vm_flags : VmFlags
deriving DecidableEq

/-- Rust `#[derive(Default)] Usage`: every count zero, `thp_eligible` false,
`protection_key` absent, `vm_flags` empty. -/
def Usage.default : Usage where
  size := 0
  kernel_page_size := 0
  mmu_page_size := 0
  rss := 0
  pss := 0
  pss_dirty := 0
  shared_clean := 0
  shared_dirty := 0
  private_clean := 0
  private_dirty := 0
  referenced := 0
  anonymous := 0
  ksm := 0
  lazy_free := 0
  anon_huge_pages := 0
  shmem_huge_pages := 0
  shmem_pmd_mapped := 0
  file_pmd_mapped := 0
  shared_hugetlb := 0
  private_hugetlb := 0
  swap := 0
  swap_pss := 0
  locked := 0
  thp_eligible := false
  protection_key := none
  vm_flags := 0

/-- Positions 2 (execute) and 3 (shared/private) of the permission quad. -/
def Permissions.parseTail (read write : Bool) (c2 c3 : Char) : Option Permissions :=
  match c2 with
  | '-' =>
    match c3 with
    | 's' => some ⟨false, write, read, true, false⟩
    | 'p' => some ⟨false, write, read, false, true⟩
    | _ => none
  | 'x' =>
    match c3 with
    | 's' => some ⟨true, write, read, true, false⟩
    | 'p' => some ⟨true, write, read, false, true⟩
    | _ => none
  | _ => none

/-- Rust `Permissions::parse`: position-fixed 4-character quad. The Rust code
checks the byte length is 4 via `try_into::<[u8; 4]>` and matches each byte;
since every accepted byte is ASCII, matching 4 characters is extensionally
the same. -/
def Permissions.parse (data : String) : Option Permissions :=
  match data.toList with
  | [c0, c1, c2, c3] =>
    match c0 with
    | '-' =>
      match c1 with
      | '-' => Permissions.parseTail false false c2 c3
      | 'w' => Permissions.parseTail false true c2 c3
      | _ => none
    | 'r' =>
      match c1 with
      | '-' => Permissions.parseTail true false c2 c3
      | 'w' => Permissions.parseTail true true c2 c3
      | _ => none
    | _ => none
  | _ => none

/-- Rust `Device::parse`: split once on `':'`, both sides `u32::from_str_radix(_, 16)`. -/
def Device.parse (data : String) : Option Device :=
  match splitOnce ':' data with
  | none => none
  | some (major, minor) =>
    match fromStrRadix 16 u32Size major, fromStrRadix 16 u32Size minor with
    | some hi, some lo => some ⟨hi, lo⟩
    | _, _ => none

/-- The per-mnemonic arm of `VmFlags::parse`; an unrecognized mnemonic is a
`panic!`, modelled as `Except.error` with the panic message. -/
def VmFlags.flagBit (flag : String) : Except String VmFlags :=
  match flag with
  | "rd" => .ok (1 <<< 0)
  | "wr" => .ok (1 <<< 1)
  | "ex" => .ok (1 <<< 2)
  | "sh" => .ok (1 <<< 3)
  | "mr" => .ok (1 <<< 4)
  | "mw" => .ok (1 <<< 5)
  | "me" => .ok (1 <<< 6)
  | "ms" => .ok (1 <<< 7)
  | "gd" => .ok (1 <<< 8)
  | "pf" => .ok (1 <<< 9)
  | "dw" => .ok (1 <<< 10)
  | "lo" => .ok (1 <<< 11)
  | "io" => .ok (1 <<< 12)
  | "sr" => .ok (1 <<< 13)
  | "rr" => .ok (1 <<< 14)
  | "dc" => .ok (1 <<< 15)
  | "de" => .ok (1 <<< 16)
  | "ac" => .ok (1 <<< 17)
  | "nr" => .ok (1 <<< 18)
  | "ht" => .ok (1 <<< 19)
  | "sf" => .ok (1 <<< 20)
  | "nl" => .ok (1 <<< 21)
  | "ar" => .ok (1 <<< 22)
  | "wf" => .ok (1 <<< 23)
  | "dd" => .ok (1 <<< 24)
  | "sd" => .ok (1 <<< 25)
  | "mm" => .ok (1 <<< 26)
  | "hg" => .ok (1 <<< 27)
  | "nh" => .ok (1 <<< 28)
  | "mg" => .ok (1 <<< 29)
  | "um" => .ok (1 <<< 30)
  | "uw" => .ok (1 <<< 31)
  | _ => .error ("Unrecognized VM flag: " ++ flag)

/-- Rust `VmFlags::parse`: tokenize, map each mnemonic to its bit (panicking on an
unknown one), fold with bitwise or from the empty set. -/
def VmFlags.parse (data : String) : Except String VmFlags :=
  (splitAsciiWhitespace data).foldlM
    (fun acc flag => (VmFlags.flagBit flag).map (fun b => acc ||| b)) 0

/-- Rust `Mapping::parse` applied to the already-tokenized line: the first token is
split on `'-'`, the following iterator positions are permissions, offset,
device, inode, and (optionally) path; every failure is `none`. The Rust code
interleaves token consumption and primitive decoding differently (hex decodes
happen in the struct literal), but all failures collapse to the same `None`,
so the order of the `Option` binds is observationally irrelevant. -/
def Mapping.parseTokens (t0 : String) (rest : List String) : Option Mapping :=
  match splitOnce '-' t0 with
  | none => none
  | some (s, e) =>
    match rest with
    | permTok :: offTok :: devTok :: inoTok :: restPath =>
      match Permissions.parse permTok, Device.parse devTok with
      | some perms, some dev =>
        match parse_hex s, parse_hex e, parse_hex offTok, parseUsize inoTok with
        | some a, some b, some off, some ino =>
          some ⟨a, b, perms, off, dev, ino, restPath.head?⟩
        | _, _, _, _ => none
      | _, _ => none
    | _ => none

/-- Rust `Mapping::parse`: `iter.next().unwrap()` panics (modelled as
`Except.error` with the panic message) when the line has no tokens at all;
otherwise the result is the `Option` produced from the tokens. -/
def Mapping.parse (line : String) : Except String (Option Mapping) :=
  match splitAsciiWhitespace line with
  | [] => .error "called `Option::unwrap()` on a `None` value"
  | t0 :: rest => .ok (Mapping.parseTokens t0 rest)

/-- Rust `Usage::parse_line` applied to the already-tokenized line. Grammar:
`KEY[:...] NUMBER [UNIT]` with no further token. Evaluation order follows the
source: missing key or number token is `Ok none`; a present third token is
matched as a unit, panicking (`Except.error`) on an unrecognized one, and
only then a fourth token (grammar failure, `Ok none`) and the decimal value
(failure `Ok none`) are examined. The `usize` left shift discards bits above
bit 63. -/
def Usage.parseLineTokens : List String → Except String (Option (String × Nat))
  | key :: value :: rest =>
    match rest with
    | [] =>
      match parseUsize value with
      | none => .ok none
      | some v => .ok (some (trimEndColons key, v))
    | unit :: rest2 =>
      match
        (if unit = "kB" then Except.ok 10
         else if unit = "mB" then Except.ok 20
         else if unit = "gB" then Except.ok 30
         else if unit = "tB" then Except.ok 40
         else Except.error ("Unrecognized unit: " ++ unit)) with
      | .error msg => .error msg
      | .ok shift =>
        match rest2 with
        | _ :: _ => .ok none
        | [] =>
          match parseUsize value with
          | none => .ok none
          | some v => .ok (some (trimEndColons key, (v <<< shift) % usizeSize))
  | _ => .ok none

/-- Rust `Usage::parse_line`: tokenize, then decode `KEY NUMBER [UNIT]`. -/
def Usage.parse_line (line : String) : Except String (Option (String × Nat)) :=
  Usage.parseLineTokens (splitAsciiWhitespace line)

/-- The key-dispatch `match` inside `Usage::parse`: stores the scaled value
into the matching field; an unrecognized key is a `panic!`, modelled as
`Except.error` with the panic message. -/
def Usage.applyKey (usage : Usage) (key : String) (value : Nat) : Except String Usage :=
  match key with
  | "Size" => .ok { usage with size := value }
  | "KernelPageSize" => .ok { usage with kernel_page_size := value }
  | "MMUPageSize" => .ok { usage with mmu_page_size := value }
  | "Rss" => .ok { usage with rss := value }
  | "Pss" => .ok { usage with pss := value }
  | "Pss_Dirty" => .ok { usage with pss_dirty := value }
  | "Shared_Clean" => .ok { usage with shared_clean := value }
  | "Shared_Dirty" => .ok { usage with shared_dirty := value }
  | "Private_Clean" => .ok { usage with private_clean := value }
  | "Private_Dirty" => .ok { usage with private_dirty := value }
  | "Referenced" => .ok { usage with referenced := value }
  | "Anonymous" => .ok { usage with anonymous := value }
  | "KSM" => .ok { usage with ksm := value }
  | "LazyFree" => .ok { usage with lazy_free := value }
  | "AnonHugePages" => .ok { usage with anon_huge_pages := value }
  | "ShmemPmdMapped" => .ok { usage with shmem_pmd_mapped := value }
  | "FilePmdMapped" => .ok { usage with file_pmd_mapped := value }
  | "Shared_Hugetlb" => .ok { usage with shared_hugetlb := value }
  | "Private_Hugetlb" => .ok { usage with private_hugetlb := value }
  | "Swap" => .ok { usage with swap := value }
  | "SwapPss" => .ok { usage with swap_pss := value }
  | "Locked" => .ok { usage with locked := value }
  | "THPeligible" => .ok { usage with thp_eligible := value != 0 }
  | "ProtectionKey" => .ok { usage with protection_key := some value }
  | _ => .error ("Unrecognized key: " ++ key)

/-- The `while let Some(line) = iter.next_if(..)` loop of `Usage::parse`.
`next_if` consumes the head only when it is `Ok` and free of `'-'`; an `Err`
head or a header line is left in the stream and the accumulated usage is
returned. A consumed `VmFlags` line is decoded by `VmFlags::parse` (which may
panic); any other consumed line goes through `parse_line`, whose grammar
failure makes the whole call return `Ok none` (with the failing line already
consumed) and whose key dispatch may panic. The result pairs the parsed value
with the lines left unconsumed. -/
def Usage.parseLoop (usage : Usage) : List Line → Except String (Option Usage × List Line)
  | [] => .ok (some usage, [])
  | .error e :: rest => .ok (some usage, .error e :: rest)
  | .ok line :: rest =>
    if containsChar line '-' then .ok (some usage, .ok line :: rest)
    else if "VmFlags".toList.isPrefixOf line.toList then
      match VmFlags.parse (String.mk (trimAsciiStartL (trimVmFlagsTagL line.toList))) with
      | .error msg => .error msg
      | .ok flags => Usage.parseLoop { usage with vm_flags := flags } rest
    else
      match Usage.parse_line line with
      | .error msg => .error msg
      | .ok none => .ok (none, rest)
      | .ok (some (key, value)) =>
        match Usage.applyKey usage key value with
        | .error msg => .error msg
        | .ok usage2 => Usage.parseLoop usage2 rest

/-- Rust `Usage::parse`: run the accumulation loop from `Usage::default()`. -/
def Usage.parse (lines : List Line) : Except String (Option Usage × List Line) :=
  Usage.parseLoop Usage.default lines

/-- Observable outcome of one step of the typed-state parser: an I/O error
returned as `Err`, a Rust `panic!` (process abort), or a normal return. -/
inductive StepResult (α : Type) where
  | ioErr : IoError → StepResult α
  | fatal : String → StepResult α
  | ok : α → StepResult α
deriving DecidableEq

/-- Rust `Parser<R, ParseMapping>::next`: take one line (`?` propagates an I/O
error), parse it as a `Mapping` header — `and_then` collapses both "stream
exhausted" and "header failed to parse" to `None` — and hand the rest of the
stream to the expect-usage state. -/
def mappingStep (lines : List Line) : StepResult (Option Mapping × List Line) :=
  match lines with
  | [] => .ok (none, [])
  | .error e :: _ => .ioErr e
  | .ok line :: rest =>
    match Mapping.parse line with
    | .error msg => .fatal msg
    | .ok m => .ok (m, rest)

/-- Rust `Parser<R, ParseUsage>::next`: decode the usage block via `Usage::parse`
and return to the expect-header state. The `std::io::Result` layer of the
Rust signature can in fact never be `Err` here (see `C5`). -/
def usageStep (lines : List Line) : StepResult (Option Usage × List Line) :=
  match Usage.parse lines with
  | .error msg => .fatal msg
  | .ok (u, rest) => .ok (u, rest)

/-- Rust `Parser<R, ParseUsage>::skip`: drop lines while the peeked head is `Ok`
and free of `'-'`; infallible (its Rust signature has no error channel). -/
def skip : List Line → List Line
  | [] => []
  | .error e :: rest => .error e :: rest
  | .ok line :: rest =>
    if containsChar line '-' then .ok line :: rest
    else skip rest

/-- The guard of `skip`'s loop (and of `Usage::parse`'s `next_if`): the line
is readable and contains no `'-'`. -/
def skipGuard : Line → Bool
  | .ok line => !containsChar line '-'
  | .error _ => false

end Smaps

deriving instance DecidableEq for Except

namespace Smaps

/-- Claim C1: the usage parser is claimed to recognize every byte-count key of
the data model, including `ShmemHugePages`. The code's key dispatch has no arm
for `ShmemHugePages` (the `Usage.shmem_huge_pages` field is never assigned),
so the line `ShmemHugePages: 1024 kB` hits the catch-all `panic!` arm, while a
neighbouring huge-page key such as `AnonHugePages` is parsed and stored. -/
theorem shmemHugePages_key_fatal :
    usageStep [Except.ok "ShmemHugePages: 1024 kB"]
      = .fatal "Unrecognized key: ShmemHugePages" ∧
    usageStep [Except.ok "AnonHugePages: 1024 kB"]
      = .ok (some { Usage.default with anon_huge_pages := 1048576 }, []) := by
  decide

/-- Claim C6: header parsing is claimed to be total, returning a failure value
even for an empty or whitespace-only line. In the code the first token is
taken with `iter.next().unwrap()`, which panics when the line has no tokens;
every other missing field follows the `?`-style failure value, as the third
conjunct shows. -/
theorem empty_header_line_fatal :
    Mapping.parse "" = .error "called `Option::unwrap()` on a `None` value" ∧
    Mapping.parse "  " = .error "called `Option::unwrap()` on a `None` value" ∧
    Mapping.parse "garbage" = .ok none := by
  decide

/-- Claim C2, counterexample: a malformed (single-token, dash-free) header
line makes the expect-header step return exactly the same value as an
exhausted stream — `Ok` with a `none` mapping — so the per-step failure is
not distinguishable from end of stream. -/
theorem malformed_header_equals_eof :
    mappingStep [Except.ok "garbage"] = .ok (none, []) ∧
    mappingStep ([] : List Line) = .ok (none, []) := by
  decide

/-- Claim C3, counterexample: in the header line
`0-1 r-xp 0 0:0 0 /a b` two tokens follow the INODE field, but the parsed
path is only the first of them, `/a`, not the full rest of the line `/a b`. -/
theorem path_first_token_only_cex :
    Mapping.parse "0-1 r-xp 0 0:0 0 /a b"
      = .ok (some ⟨0, 1, ⟨true, false, true, false, true⟩, 0, ⟨0, 0⟩, 0, some "/a"⟩) ∧
    (("/a" : String) == "/a b") = false := by
  decide

/-- Claim C4, counterexample: the token `+1` contains the sign character
`'+'`, yet `parse_hex` succeeds on it (Rust's `from_str_radix` accepts one
leading `'+'`). -/
theorem parse_hex_accepts_plus_cex :
    parse_hex "+1" = some 1 ∧ "+1".toList.contains '+' = true := by
  decide

/-- Claim C5, counterexample: a usage-block step that meets an erroring line
does not propagate the I/O error — it returns a successfully parsed `Usage`
holding the fields accumulated so far and leaves the erroring line in the
stream. -/
theorem usage_step_swallows_io_error_cex :
    usageStep [Except.ok "Size: 1 kB", Except.error 7]
      = .ok (some { Usage.default with size := 1024 }, [Except.error 7]) := by
  decide

/-- Claim C2 (amended): the expect-header step returns an `Ok` result with no
`Mapping` exactly when the line source is exhausted or the consumed line is a
malformed header on which `Mapping::parse` returns `None`; the two cases are
not distinguishable in the step's result. -/
theorem mappingStep_none_iff (lines rest : List Line) :
    mappingStep lines = .ok (none, rest) ↔
      (lines = [] ∧ rest = []) ∨
      (∃ l, lines = Except.ok l :: rest ∧ Mapping.parse l = .ok none) := by
  cases lines with
  | nil => simp [mappingStep]
  | cons hd tl =>
    cases hd with
    | error e => simp [mappingStep]
    | ok l =>
      simp only [mappingStep]
      constructor
      · intro h'
        cases hp : Mapping.parse l with
        | error msg => rw [hp] at h'; exact absurd h' (by simp)
        | ok m =>
          rw [hp] at h'
          simp only [StepResult.ok.injEq, Prod.mk.injEq] at h'
          exact Or.inr ⟨l, by rw [h'.2], by rw [hp, h'.1]⟩
      · intro h'
        rcases h' with ⟨h1, _⟩ | ⟨l1, hcons, hparse⟩
        · exact absurd h1 (by simp)
        · simp only [List.cons.injEq, Except.ok.injEq] at hcons
          rw [hcons.1, hparse, hcons.2]

/-- Witness for `mappingStep_none_iff`: the malformed header `garbage` makes
the step return the end-of-stream-shaped result. -/
theorem mappingStep_none_iff_witness :
    mappingStep [Except.ok "garbage"] = .ok (none, []) :=
  (mappingStep_none_iff [Except.ok "garbage"] []).mpr
    (Or.inr ⟨"garbage", rfl, by decide⟩)

/-- Claim C8: advancing from the expect-usage state when the next line is a
header line (contains `'-'`) or the stream is exhausted returns the default
all-zero `Usage`, consuming nothing. -/
theorem usage_block_zero_lines_default :
    (∀ (line : String) (rest : List Line), containsChar line '-' = true →
        usageStep (Except.ok line :: rest)
          = .ok (some Usage.default, Except.ok line :: rest)) ∧
    usageStep ([] : List Line) = .ok (some Usage.default, []) := by
  refine ⟨?_, by decide⟩
  intro line rest h
  simp [usageStep, Usage.parse, Usage.parseLoop, h]

/-- Witness for `usage_block_zero_lines_default` at the header line `1-2`. -/
theorem usage_block_zero_lines_default_witness :
    usageStep [Except.ok "1-2"] = .ok (some Usage.default, [Except.ok "1-2"]) :=
  usage_block_zero_lines_default.1 "1-2" [] (by decide)

/-- Rust `skip` consumes exactly the maximal prefix of readable dash-free lines. -/
theorem skip_eq_dropWhile (lines : List Line) :
    skip lines = lines.dropWhile skipGuard := by
  induction lines with
  | nil => rfl
  | cons hd tl ih =>
    cases hd with
    | error e => simp [skip, skipGuard, List.dropWhile_cons]
    | ok l =>
      cases hc : containsChar l '-' with
      | false => simp [skip, skipGuard, List.dropWhile_cons, hc, ih]
      | true => simp [skip, skipGuard, List.dropWhile_cons, hc]

/-- Claim C9: for every stream content, `skip` is the pure line-dropping loop
guarded only by the `'-'`-presence check — it performs no field decoding, has
no failure outcome (its type has no error channel), and the line it stops on,
when readable, contains `'-'`. -/
theorem skip_never_fails (lines : List Line) :
    skip lines = lines.dropWhile skipGuard ∧
    (∀ (s : String) (rest : List Line),
        skip lines = Except.ok s :: rest → containsChar s '-' = true) := by
  refine ⟨skip_eq_dropWhile lines, ?_⟩
  intro s rest h
  rw [skip_eq_dropWhile] at h
  have := List.head?_dropWhile_not skipGuard lines
  rw [h] at this
  simpa [skipGuard] using this

/-- Witness for `skip_never_fails`: skipping a one-line garbage block stops on
the following header line. -/
theorem skip_never_fails_witness :
    skip [Except.ok "garbage junk", Except.ok "1-2"]
      = List.dropWhile skipGuard [Except.ok "garbage junk", Except.ok "1-2"] ∧
    containsChar "1-2" '-' = true :=
  ⟨(skip_never_fails [Except.ok "garbage junk", Except.ok "1-2"]).1,
   (skip_never_fails [Except.ok "garbage junk", Except.ok "1-2"]).2 "1-2" []
     (by decide)⟩

/-- Each line `skipGuard` lets through is a readable line without `'-'`. -/
theorem skipGuard_iff (l : Line) :
    skipGuard l = true ↔ ∃ s, l = Except.ok s ∧ containsChar s '-' = false := by
  cases l <;> simp [skipGuard]

/-- The loop of `Usage::parse` only ever consumes lines satisfying the
`next_if` guard: whenever it returns normally, the unconsumed rest is a
suffix and every consumed line was readable and dash-free. -/
theorem parseLoop_prefix (lines : List Line) :
    ∀ (u : Usage) (res : Option Usage) (rest : List Line),
      Usage.parseLoop u lines = .ok (res, rest) →
      ∃ pre, lines = pre ++ rest ∧ ∀ l ∈ pre, skipGuard l = true := by
  induction lines with
  | nil =>
    intro u res rest h
    simp only [Usage.parseLoop, Except.ok.injEq, Prod.mk.injEq] at h
    exact ⟨[], by simp [← h.2], by simp⟩
  | cons hd tl ih =>
    intro u res rest h
    cases hd with
    | error e =>
      simp only [Usage.parseLoop, Except.ok.injEq, Prod.mk.injEq] at h
      exact ⟨[], by simp [← h.2], by simp⟩
    | ok l =>
      simp only [Usage.parseLoop] at h
      by_cases hc : containsChar l '-' = true
      · rw [if_pos hc] at h
        simp only [Except.ok.injEq, Prod.mk.injEq] at h
        exact ⟨[], by simp [← h.2], by simp⟩
      · rw [if_neg hc] at h
        have hg : skipGuard (Except.ok l) = true := by
          simp [skipGuard, Bool.not_eq_true] at hc ⊢
          simp [hc]
        by_cases hv : ("VmFlags".toList.isPrefixOf l.toList) = true
        · rw [if_pos hv] at h
          cases hfl : VmFlags.parse (String.mk (trimAsciiStartL (trimVmFlagsTagL l.toList))) with
          | error msg => rw [hfl] at h; exact absurd h (by simp)
          | ok flags =>
            rw [hfl] at h
            obtain ⟨pre, hpre, hall⟩ := ih _ _ _ h
            refine ⟨Except.ok l :: pre, by simp [hpre], ?_⟩
            intro x hx
            rcases List.mem_cons.mp hx with hx | hx
            · exact hx ▸ hg
            · exact hall x hx
        · rw [if_neg hv] at h
          cases hpl : Usage.parse_line l with
          | error msg => rw [hpl] at h; exact absurd h (by simp)
          | ok o =>
            rw [hpl] at h
            cases o with
            | none =>
              simp only [Except.ok.injEq, Prod.mk.injEq] at h
              refine ⟨[Except.ok l], by simp [← h.2], ?_⟩
              intro x hx
              rcases List.mem_cons.mp hx with hx | hx
              · exact hx ▸ hg
              · simp at hx
            | some kv =>
              obtain ⟨key, value⟩ := kv
              have h2 : (match Usage.applyKey u key value with
                  | Except.error msg => Except.error msg
                  | Except.ok usage2 => Usage.parseLoop usage2 tl)
                  = Except.ok (res, rest) := h
              cases hap : Usage.applyKey u key value with
              | error msg =>
                rw [hap] at h2
                have h3 : (Except.error msg : Except String (Option Usage × List Line))
                    = Except.ok (res, rest) := h2
                simp at h3
              | ok u2 =>
                rw [hap] at h2
                have h3 : Usage.parseLoop u2 tl = Except.ok (res, rest) := h2
                obtain ⟨pre, hpre, hall⟩ := ih _ _ _ h3
                refine ⟨Except.ok l :: pre, by simp [hpre], ?_⟩
                intro x hx
                rcases List.mem_cons.mp hx with hx | hx
                · exact hx ▸ hg
                · exact hall x hx

/-- Claim C10: neither the usage-decoding step nor `skip` ever consumes a
line containing `'-'` (or an unreadable line): whatever either consumed is a
prefix of readable dash-free lines, so the next header line is left for the
following expect-header step. -/
theorem no_dash_line_consumed :
    (∀ (lines rest : List Line) (res : Option Usage),
        usageStep lines = .ok (res, rest) →
        ∃ pre, lines = pre ++ rest ∧
          ∀ l ∈ pre, ∃ s, l = Except.ok s ∧ containsChar s '-' = false) ∧
    (∀ lines : List Line,
        ∃ pre, lines = pre ++ skip lines ∧
          ∀ l ∈ pre, ∃ s, l = Except.ok s ∧ containsChar s '-' = false) := by
  constructor
  · intro lines rest res h
    have hp : Usage.parse lines = .ok (res, rest) := by
      unfold usageStep at h
      cases hq : Usage.parse lines with
      | error msg => rw [hq] at h; exact absurd h (by simp)
      | ok p => rw [hq] at h; simp only [StepResult.ok.injEq] at h; rw [← h]
    obtain ⟨pre, hpre, hall⟩ := parseLoop_prefix lines Usage.default res rest hp
    exact ⟨pre, hpre, fun l hl => (skipGuard_iff l).mp (hall l hl)⟩
  · intro lines
    refine ⟨lines.takeWhile skipGuard, ?_, ?_⟩
    · rw [skip_eq_dropWhile]
      exact (List.takeWhile_append_dropWhile skipGuard lines).symm
    · intro l hl
      exact (skipGuard_iff l).mp (List.mem_takeWhile_imp hl)

/-- Witness for `no_dash_line_consumed`: a one-detail-line block followed by
a header; the step consumes only the dash-free detail line. -/
theorem no_dash_line_consumed_witness :
    ∃ pre, ([Except.ok "Size: 1 kB", Except.ok "1-2"] : List Line)
        = pre ++ [Except.ok "1-2"] ∧
      ∀ l ∈ pre, ∃ s, l = Except.ok s ∧ containsChar s '-' = false :=
  no_dash_line_consumed.1 [Except.ok "Size: 1 kB", Except.ok "1-2"]
    [Except.ok "1-2"] (some { Usage.default with size := 1024 }) (by decide)

/-- Claim C5 (amended): an I/O error from the line source is propagated
immediately by the expect-header step; the usage step, however, can never
return an I/O error — an erroring line merely terminates the block, the
`Usage` accumulated so far is returned, and the erroring line is left in the
stream to surface at the following expect-header step. -/
theorem io_error_propagation :
    (∀ (e : IoError) (rest : List Line),
        mappingStep (Except.error e :: rest) = .ioErr e) ∧
    (∀ (lines : List Line) (e : IoError), usageStep lines ≠ .ioErr e) ∧
    (∀ (e : IoError) (rest : List Line),
        usageStep (Except.error e :: rest)
          = .ok (some Usage.default, Except.error e :: rest)) := by
  refine ⟨fun e rest => rfl, ?_, fun e rest => rfl⟩
  intro lines e h
  unfold usageStep at h
  cases hq : Usage.parse lines with
  | error msg => rw [hq] at h; exact absurd h (by simp)
  | ok p => rw [hq] at h; exact absurd h (by simp)

/-- Witness for `io_error_propagation` at the concrete error payload `3`. -/
theorem io_error_propagation_witness :
    mappingStep [Except.error 3] = .ioErr 3 ∧
    usageStep [Except.error 3] ≠ .ioErr 3 ∧
    usageStep [Except.error 3] = .ok (some Usage.default, [Except.error 3]) :=
  ⟨io_error_propagation.1 3 [], io_error_propagation.2.1 [Except.error 3] 3,
   io_error_propagation.2.2 3 []⟩

/-- A failed accumulator absorbs every further digit. -/
theorem foldl_digitStep_none (radix : Nat) (cs : List Char) :
    cs.foldl (digitStep radix) none = none := by
  induction cs with
  | nil => rfl
  | cons c cs ih => simpa [digitStep] using ih

/-- A single non-digit character anywhere makes the accumulation fail. -/
theorem foldl_digitStep_absorb (radix : Nat) :
    ∀ (cs : List Char) (acc : Option Nat) (c : Char), c ∈ cs →
      digitValue radix c = none → cs.foldl (digitStep radix) acc = none := by
  intro cs
  induction cs with
  | nil => intro acc c hc; simp at hc
  | cons c0 cs ih =>
    intro acc c hc hd
    rcases List.mem_cons.mp hc with rfl | hc
    · have hstep : digitStep radix acc c = none := by
        cases acc <;> simp [digitStep, hd]
      simp [List.foldl_cons, hstep, foldl_digitStep_none]
    · simp only [List.foldl_cons]
      exact ih _ c hc hd

/-- A character other than `'+'` survives the sign stripping. -/
theorem mem_stripPlus {c : Char} (hne : c ≠ '+') :
    ∀ {cs : List Char}, c ∈ cs → c ∈ stripPlus cs := by
  intro cs h
  cases cs with
  | nil => simp at h
  | cons c0 rest =>
    simp only [stripPlus]
    by_cases h0 : c0 = '+'
    · rw [if_pos h0]
      rcases List.mem_cons.mp h with rfl | hr
      · exact absurd h0 hne
      · exact hr
    · rw [if_neg h0]; exact h

/-- Any occurrence of a non-digit, non-sign character fails the whole
unsigned radix parse. -/
theorem fromStrRadix_none_of_bad_char (radix bound : Nat) (s : String) (c : Char)
    (hmem : c ∈ s.toList) (hne : c ≠ '+') (hd : digitValue radix c = none) :
    fromStrRadix radix bound s = none := by
  unfold fromStrRadix
  have h1 : c ∈ stripPlus s.toList := mem_stripPlus hne hmem
  have h2 : ¬(stripPlus s.toList).isEmpty = true := by
    cases hsp : stripPlus s.toList with
    | nil => rw [hsp] at h1; simp at h1
    | cons a b => simp
  rw [if_neg h2]
  have h3 : digitsValue radix (stripPlus s.toList) = none :=
    foldl_digitStep_absorb radix _ _ c h1 hd
  rw [h3]

/-- Claim C4 (amended): `parse_hex` fails on every token containing `'-'` or
a prefix character such as `'x'`; on a nonempty all-hex-digit token whose
value fits in `usize` it returns that value; and it additionally accepts one
leading `'+'` before such a token (Rust's `from_str_radix` sign handling). -/
theorem parse_hex_grammar :
    (∀ s : String, s.toList.contains '-' = true → parse_hex s = none) ∧
    (∀ s : String, s.toList.contains 'x' = true → parse_hex s = none) ∧
    (∀ (cs : List Char) (v : Nat), cs ≠ [] →
        (∀ c ∈ cs, (digitValue 16 c).isSome = true) →
        digitsValue 16 cs = some v → v < usizeSize →
        parse_hex (String.mk cs) = some v ∧
          parse_hex (String.mk ('+' :: cs)) = some v) := by
  refine ⟨?_, ?_, ?_⟩
  · intro s h
    rw [List.contains, List.elem_iff] at h
    exact fromStrRadix_none_of_bad_char 16 usizeSize s '-' h (by decide) (by decide)
  · intro s h
    rw [List.contains, List.elem_iff] at h
    exact fromStrRadix_none_of_bad_char 16 usizeSize s 'x' h (by decide) (by decide)
  · intro cs v hne hdig hval hlt
    cases cs with
    | nil => exact absurd rfl hne
    | cons c0 rest =>
      have h0 : c0 ≠ '+' := by
        intro h0
        have := hdig c0 (List.mem_cons_self c0 rest)
        rw [h0] at this
        simp [digitValue] at this
      have htl : (String.mk (c0 :: rest)).toList = c0 :: rest := rfl
      have htl2 : (String.mk ('+' :: c0 :: rest)).toList = '+' :: c0 :: rest := rfl
      have hsp : stripPlus (c0 :: rest) = c0 :: rest := by
        simp only [stripPlus]; rw [if_neg h0]
      have hsp2 : stripPlus ('+' :: c0 :: rest) = c0 :: rest := by
        simp [stripPlus]
      constructor
      · unfold parse_hex fromStrRadix
        rw [htl, hsp]
        simp [hval, hlt]
      · unfold parse_hex fromStrRadix
        rw [htl2, hsp2]
        simp [hval, hlt]

/-- Claim C7: in a sized-value line tokenized as `KEY N UNIT` with `UNIT` in
kB/mB/gB/tB, the decoded value is `N` left-shifted by 10/20/30/40 bits (when
the shifted value fits in `usize`); with no unit the decoded value is `N`
unchanged; and concretely `Size: 72 kB` decodes to 73728. -/
theorem unit_scaling :
    (∀ (line k n u : String) (sh v : Nat),
        splitAsciiWhitespace line = [k, n, u] →
        ((u = "kB" ∧ sh = 10) ∨ (u = "mB" ∧ sh = 20) ∨
         (u = "gB" ∧ sh = 30) ∨ (u = "tB" ∧ sh = 40)) →
        parseUsize n = some v → v <<< sh < usizeSize →
        Usage.parse_line line = .ok (some (trimEndColons k, v <<< sh))) ∧
    (∀ (line k n : String) (v : Nat),
        splitAsciiWhitespace line = [k, n] → parseUsize n = some v →
        Usage.parse_line line = .ok (some (trimEndColons k, v))) ∧
    Usage.parse_line "Size: 72 kB" = .ok (some ("Size", 73728)) := by
  refine ⟨?_, ?_, by decide⟩
  · intro line k n u sh v hsplit hu hv hb
    unfold Usage.parse_line
    rw [hsplit]
    rcases hu with ⟨hu, hs⟩ | ⟨hu, hs⟩ | ⟨hu, hs⟩ | ⟨hu, hs⟩ <;> subst hu <;> subst hs <;>
      simp [Usage.parseLineTokens, hv, Nat.mod_eq_of_lt hb]
  · intro line k n v hsplit hv
    unfold Usage.parse_line
    rw [hsplit]
    simp [Usage.parseLineTokens, hv]

/-- Witness for `unit_scaling`: a mB-scaled line and a unitless line. -/
theorem unit_scaling_witness :
    Usage.parse_line "Rss: 3 mB" = .ok (some ("Rss", 3145728)) ∧
    Usage.parse_line "THPeligible: 1" = .ok (some ("THPeligible", 1)) :=
  ⟨unit_scaling.1 "Rss: 3 mB" "Rss:" "3" "mB" 20 3 (by decide)
      (Or.inr (Or.inl ⟨rfl, rfl⟩)) (by decide) (by decide),
   unit_scaling.2.1 "THPeligible: 1" "THPeligible:" "1" 1 (by decide) (by decide)⟩

/-- Claim C3 (amended): for a header line with five mandatory fields and any
trailing tokens, a successful parse stores only the FIRST token after INODE
as `path` (further tokens are silently dropped); `path` is absent exactly
when no token follows INODE. -/
theorem mapping_path_first_token (line t0 t1 t2 t3 t4 : String)
    (rest : List String) (m : Mapping)
    (hsplit : splitAsciiWhitespace line = t0 :: t1 :: t2 :: t3 :: t4 :: rest)
    (hm : Mapping.parse line = .ok (some m)) :
    m.path = rest.head? ∧ (m.path = none ↔ rest = []) := by
  have hp : Mapping.parseTokens t0 (t1 :: t2 :: t3 :: t4 :: rest) = some m := by
    unfold Mapping.parse at hm
    rw [hsplit] at hm
    simpa using hm
  unfold Mapping.parseTokens at hp
  cases hso : splitOnce '-' t0 with
  | none =>
    rw [hso] at hp
    have hfalse : (none : Option Mapping) = some m := hp
    simp at hfalse
  | some se =>
    obtain ⟨s, e⟩ := se
    rw [hso] at hp
    have hp2 : (match Permissions.parse t1, Device.parse t3 with
        | some perms, some dev =>
          (match parse_hex s, parse_hex e, parse_hex t2, parseUsize t4 with
           | some a, some b, some off, some ino =>
             some (Mapping.mk a b perms off dev ino rest.head?)
           | _, _, _, _ => none)
        | _, _ => none) = some m := hp
    cases hperm : Permissions.parse t1 with
    | none =>
      rw [hperm] at hp2
      have hfalse : (none : Option Mapping) = some m := hp2
      simp at hfalse
    | some perms =>
      rw [hperm] at hp2
      cases hdev : Device.parse t3 with
      | none =>
        rw [hdev] at hp2
        have hfalse : (none : Option Mapping) = some m := hp2
        simp at hfalse
      | some dev =>
        rw [hdev] at hp2
        have hp3 : (match parse_hex s, parse_hex e, parse_hex t2, parseUsize t4 with
            | some a, some b, some off, some ino =>
              some (Mapping.mk a b perms off dev ino rest.head?)
            | _, _, _, _ => none) = some m := hp2
        cases ha : parse_hex s with
        | none =>
          rw [ha] at hp3
          have hfalse : (none : Option Mapping) = some m := hp3
          simp at hfalse
        | some a =>
          rw [ha] at hp3
          cases hb : parse_hex e with
          | none =>
            rw [hb] at hp3
            have hfalse : (none : Option Mapping) = some m := hp3
            simp at hfalse
          | some b =>
            rw [hb] at hp3
            cases hoff : parse_hex t2 with
            | none =>
              rw [hoff] at hp3
              have hfalse : (none : Option Mapping) = some m := hp3
              simp at hfalse
            | some off =>
              rw [hoff] at hp3
              cases hino : parseUsize t4 with
              | none =>
                rw [hino] at hp3
                have hfalse : (none : Option Mapping) = some m := hp3
                simp at hfalse
              | some ino =>
                rw [hino] at hp3
                have hp4 : some (Mapping.mk a b perms off dev ino rest.head?)
                    = some m := hp3
                rw [← Option.some.inj hp4]
                exact ⟨rfl, by simp⟩

/-- Witness for `mapping_path_first_token` at a header whose path field
holds two tokens. -/
theorem mapping_path_first_token_witness :
    (some "/a" : Option String) = (["/a", "b"] : List String).head? ∧
    ((some "/a" : Option String) = none ↔ (["/a", "b"] : List String) = []) :=
  mapping_path_first_token "0-1 r-xp 0 0:0 0 /a b" "0-1" "r-xp" "0" "0:0" "0"
    ["/a", "b"]
    ⟨0, 1, ⟨true, false, true, false, true⟩, 0, ⟨0, 0⟩, 0, some "/a"⟩
    (by decide) (by decide)

/-- Witness for `parse_hex_grammar`: the bad characters at concrete tokens
and the hex token `1A` with and without the leading `'+'`. -/
theorem parse_hex_grammar_witness :
    parse_hex "a-b" = none ∧ parse_hex "0x10" = none ∧
    parse_hex "1A" = some 26 ∧ parse_hex "+1A" = some 26 := by
  refine ⟨parse_hex_grammar.1 "a-b" (by decide),
          parse_hex_grammar.2.1 "0x10" (by decide), ?_, ?_⟩
  · exact (parse_hex_grammar.2.2 ['1', 'A'] 26 (by decide) (by decide)
      (by decide) (by decide)).1
  · exact (parse_hex_grammar.2.2 ['1', 'A'] 26 (by decide) (by decide)
      (by decide) (by decide)).2

end Smaps
